import Mathlib

/-!
Verification of the Sockets repository's enumeration layer.

The repository consists of three C headers, each declaring an open
extensible enumeration with fixed underlying type int32_t:

  AddressFamily (unix = AF_UNIX, inet = AF_INET, inet6 = AF_INET6, link = AF_LINK)
  SocketType    (stream = SOCK_STREAM, datagram = SOCK_DGRAM, raw = SOCK_RAW,
                 seqpacket = SOCK_SEQPACKET)
  IPProtocol    (tcp = IPPROTO_TCP, udp = IPPROTO_UDP, icmp = IPPROTO_ICMP,
                 icmpv6 = IPPROTO_ICMPV6)

An open enumeration with fixed underlying type int32_t is, by the C
semantics the headers rely on, a value of type int32_t: every 32-bit
signed integer is a valid value of the enumeration, conversion in either
direction is the identity on the bit pattern, and equality is integer
equality.  The numeric values of the named variants come from the
platform's networking headers, which are external to the repository; we
therefore model those constants as a parameter (a `Platform` record) and
additionally give the concrete Darwin instantiation where a claim speaks
of the target platform.
-/

namespace Sockets

/-- A 32-bit signed integer, modelled as an integer in the interval
[-2^31, 2^31), the range of the C type int32_t underlying all three
enumerations. -/
abbrev I32 := {n : Int // -(2 ^ 31) ≤ n ∧ n < 2 ^ 31}

/-- The operating-system socket constants referenced by the three headers
(from sys/sockio.h and netinet/in.h).  Their numeric values are resolved
per target platform by the C compiler; the headers only name them, so the
embedding abstracts over an arbitrary assignment. -/
structure Platform where
  AF_UNIX : I32
  AF_INET : I32
  AF_INET6 : I32
  AF_LINK : I32
  SOCK_STREAM : I32
  SOCK_DGRAM : I32
  SOCK_RAW : I32
  SOCK_SEQPACKET : I32
  IPPROTO_TCP : I32
  IPPROTO_UDP : I32
  IPPROTO_ICMP : I32
  IPPROTO_ICMPV6 : I32

/-- Modelled from the spec: the numeric values of the OS constants on the
Darwin target platform (the repository includes sys/sockio.h and names
AF_LINK, both Darwin/BSD specific).  These values live in system headers
outside the repository; the spec records only that each named variant is
bound to the platform's actual constant. -/
def darwin : Platform :=
  ⟨⟨1, by decide⟩, ⟨2, by decide⟩, ⟨30, by decide⟩, ⟨18, by decide⟩,
   ⟨1, by decide⟩, ⟨2, by decide⟩, ⟨3, by decide⟩, ⟨5, by decide⟩,
   ⟨6, by decide⟩, ⟨17, by decide⟩, ⟨1, by decide⟩, ⟨58, by decide⟩⟩

/-- `typedef enum __attribute__((enum_extensibility(open))) : int32_t {...}
AddressFamily` — an open enumeration over int32_t: any 32-bit signed
integer is a value of the type. -/
structure AddressFamily where
  rawValue : I32
deriving DecidableEq

/-- Converting an int32 to the open enumeration (always permitted by the
open extensibility attribute; the identity on the integer). -/
def AddressFamily.fromRaw (n : I32) : AddressFamily := ⟨n⟩

/-- `unix = AF_UNIX` in AddressFamily.h. -/
def AddressFamily.unix (p : Platform) : AddressFamily := ⟨p.AF_UNIX⟩

/-- `inet = AF_INET` in AddressFamily.h. -/
def AddressFamily.inet (p : Platform) : AddressFamily := ⟨p.AF_INET⟩

/-- `inet6 = AF_INET6` in AddressFamily.h. -/
def AddressFamily.inet6 (p : Platform) : AddressFamily := ⟨p.AF_INET6⟩

/-- `link = AF_LINK` in AddressFamily.h. -/
def AddressFamily.link (p : Platform) : AddressFamily := ⟨p.AF_LINK⟩

/-- The C equality operator `==` on enumeration values compares the
underlying int32 values. -/
def AddressFamily.eqb (a b : AddressFamily) : Bool :=
  a.rawValue.val == b.rawValue.val

/-- `typedef enum __attribute__((enum_extensibility(open))) : int32_t {...}
SocketType` — an open enumeration over int32_t. -/
structure SocketType where
  rawValue : I32
deriving DecidableEq

/-- Converting an int32 to the open enumeration SocketType. -/
def SocketType.fromRaw (n : I32) : SocketType := ⟨n⟩

/-- `stream = SOCK_STREAM` in SocketType.h. -/
def SocketType.stream (p : Platform) : SocketType := ⟨p.SOCK_STREAM⟩

/-- `datagram = SOCK_DGRAM` in SocketType.h. -/
def SocketType.datagram (p : Platform) : SocketType := ⟨p.SOCK_DGRAM⟩

/-- `raw = SOCK_RAW` in SocketType.h. -/
def SocketType.raw (p : Platform) : SocketType := ⟨p.SOCK_RAW⟩

/-- `seqpacket = SOCK_SEQPACKET` in SocketType.h. -/
def SocketType.seqpacket (p : Platform) : SocketType := ⟨p.SOCK_SEQPACKET⟩

/-- The C equality operator `==` on SocketType values. -/
def SocketType.eqb (a b : SocketType) : Bool :=
  a.rawValue.val == b.rawValue.val

/-- `typedef enum __attribute__((enum_extensibility(open))) : int32_t {...}
IPProtocol` — an open enumeration over int32_t. -/
structure IPProtocol where
  rawValue : I32
deriving DecidableEq

/-- Converting an int32 to the open enumeration IPProtocol. -/
def IPProtocol.fromRaw (n : I32) : IPProtocol := ⟨n⟩

/-- `tcp = IPPROTO_TCP` in IPProtocol.h. -/
def IPProtocol.tcp (p : Platform) : IPProtocol := ⟨p.IPPROTO_TCP⟩

/-- `udp = IPPROTO_UDP` in IPProtocol.h. -/
def IPProtocol.udp (p : Platform) : IPProtocol := ⟨p.IPPROTO_UDP⟩

/-- `icmp = IPPROTO_ICMP` in IPProtocol.h. -/
def IPProtocol.icmp (p : Platform) : IPProtocol := ⟨p.IPPROTO_ICMP⟩

/-- `icmpv6 = IPPROTO_ICMPV6` in IPProtocol.h. -/
def IPProtocol.icmpv6 (p : Platform) : IPProtocol := ⟨p.IPPROTO_ICMPV6⟩

/-- The C equality operator `==` on IPProtocol values. -/
def IPProtocol.eqb (a b : IPProtocol) : Bool :=
  a.rawValue.val == b.rawValue.val

/-! ### Stateful embedding of the operations

The operations of the layer, embedded in explicit state-passing style
over an arbitrary ambient state type.  The source performs no state
access of any kind (the headers contain only the type and constant
declarations), so each operation returns its value together with the
state it was given, untouched.  This makes purity provable rather than
assumed: the result is independent of the incoming state and the state
is returned unchanged. -/

/-- Construction of an AddressFamily from an int32, in state-passing style. -/
def AddressFamily.fromRawS {σ : Type} (s : σ) (n : I32) : AddressFamily × σ :=
  (AddressFamily.fromRaw n, s)

/-- Reading the raw integer of an AddressFamily, in state-passing style. -/
def AddressFamily.rawValueS {σ : Type} (s : σ) (a : AddressFamily) : I32 × σ :=
  (a.rawValue, s)

/-- Equality comparison of AddressFamily values, in state-passing style. -/
def AddressFamily.eqbS {σ : Type} (s : σ) (a b : AddressFamily) : Bool × σ :=
  (AddressFamily.eqb a b, s)

/-- Construction of a SocketType from an int32, in state-passing style. -/
def SocketType.fromRawS {σ : Type} (s : σ) (n : I32) : SocketType × σ :=
  (SocketType.fromRaw n, s)

/-- Reading the raw integer of a SocketType, in state-passing style. -/
def SocketType.rawValueS {σ : Type} (s : σ) (t : SocketType) : I32 × σ :=
  (t.rawValue, s)

/-- Equality comparison of SocketType values, in state-passing style. -/
def SocketType.eqbS {σ : Type} (s : σ) (a b : SocketType) : Bool × σ :=
  (SocketType.eqb a b, s)

/-- Construction of an IPProtocol from an int32, in state-passing style. -/
def IPProtocol.fromRawS {σ : Type} (s : σ) (n : I32) : IPProtocol × σ :=
  (IPProtocol.fromRaw n, s)

/-- Reading the raw integer of an IPProtocol, in state-passing style. -/
def IPProtocol.rawValueS {σ : Type} (s : σ) (pr : IPProtocol) : I32 × σ :=
  (pr.rawValue, s)

/-- Equality comparison of IPProtocol values, in state-passing style. -/
def IPProtocol.eqbS {σ : Type} (s : σ) (a b : IPProtocol) : Bool × σ :=
  (IPProtocol.eqb a b, s)

/-! ### Helper lemmas -/

/-- Two 32-bit integers are equal exactly when their integer payloads are. -/
theorem I32.val_inj {m n : I32} : m.val = n.val ↔ m = n :=
  (Subtype.ext_iff).symm

/-- The boolean integer comparison underlying the C `==` agrees with
propositional equality of the wrapped 32-bit integers. -/
theorem eqb_int_iff {m n : I32} : (m.val == n.val) = true ↔ m = n := by
  rw [beq_iff_eq]
  exact I32.val_inj

/-! ### Claims -/

/-- Claim C1: for each of the three enumerations and every named variant,
the raw integer value of the variant equals the operating system's
constant for that concept on the target platform (unix = AF_UNIX,
inet = AF_INET, inet6 = AF_INET6, link = AF_LINK; stream = SOCK_STREAM,
datagram = SOCK_DGRAM, raw = SOCK_RAW, seqpacket = SOCK_SEQPACKET;
tcp = IPPROTO_TCP, udp = IPPROTO_UDP, icmp = IPPROTO_ICMP,
icmpv6 = IPPROTO_ICMPV6), for every assignment of OS constants. -/
theorem claim_C1_named_variants_match_os_constants :
    ∀ p : Platform,
      (AddressFamily.unix p).rawValue = p.AF_UNIX ∧
      (AddressFamily.inet p).rawValue = p.AF_INET ∧
      (AddressFamily.inet6 p).rawValue = p.AF_INET6 ∧
      (AddressFamily.link p).rawValue = p.AF_LINK ∧
      (SocketType.stream p).rawValue = p.SOCK_STREAM ∧
      (SocketType.datagram p).rawValue = p.SOCK_DGRAM ∧
      (SocketType.raw p).rawValue = p.SOCK_RAW ∧
      (SocketType.seqpacket p).rawValue = p.SOCK_SEQPACKET ∧
      (IPProtocol.tcp p).rawValue = p.IPPROTO_TCP ∧
      (IPProtocol.udp p).rawValue = p.IPPROTO_UDP ∧
      (IPProtocol.icmp p).rawValue = p.IPPROTO_ICMP ∧
      (IPProtocol.icmpv6 p).rawValue = p.IPPROTO_ICMPV6 := by
  intro p
  exact ⟨rfl, rfl, rfl, rfl, rfl, rfl, rfl, rfl, rfl, rfl, rfl, rfl⟩

/-- Claim C2: for each of the three enumerations and every 32-bit signed
integer n, constructing a value from n and reading back its raw integer
yields exactly n. -/
theorem claim_C2_int_to_value_to_int_roundtrip :
    ∀ n : I32,
      (AddressFamily.fromRaw n).rawValue = n ∧
      (SocketType.fromRaw n).rawValue = n ∧
      (IPProtocol.fromRaw n).rawValue = n := by
  intro n
  exact ⟨rfl, rfl, rfl⟩

/-- Claim C3: for each of the three enumerations, equality of values is
determined purely by the underlying integer: values constructed from m
and n compare equal (by the C `==` on the underlying int32) exactly when
m = n. -/
theorem claim_C3_equality_is_integer_equality :
    ∀ m n : I32,
      (AddressFamily.eqb (AddressFamily.fromRaw m) (AddressFamily.fromRaw n) = true
        ↔ m = n) ∧
      (SocketType.eqb (SocketType.fromRaw m) (SocketType.fromRaw n) = true
        ↔ m = n) ∧
      (IPProtocol.eqb (IPProtocol.fromRaw m) (IPProtocol.fromRaw n) = true
        ↔ m = n) := by
  intro m n
  exact ⟨eqb_int_iff, eqb_int_iff, eqb_int_iff⟩

/-- Claim C4: for each of the three enumerations, construction from any
32-bit integer — including integers matching no named variant — always
succeeds with no error branch: for every n there is a resulting value,
it carries n losslessly, and it is a valid comparable instance (equal to
itself under the layer's equality). -/
theorem claim_C4_construction_is_total :
    ∀ n : I32,
      (∃ a : AddressFamily, AddressFamily.fromRaw n = a ∧ a.rawValue = n ∧
        AddressFamily.eqb a a = true) ∧
      (∃ t : SocketType, SocketType.fromRaw n = t ∧ t.rawValue = n ∧
        SocketType.eqb t t = true) ∧
      (∃ pr : IPProtocol, IPProtocol.fromRaw n = pr ∧ pr.rawValue = n ∧
        IPProtocol.eqb pr pr = true) := by
  intro n
  refine ⟨⟨AddressFamily.fromRaw n, rfl, rfl, ?_⟩,
          ⟨SocketType.fromRaw n, rfl, rfl, ?_⟩,
          ⟨IPProtocol.fromRaw n, rfl, rfl, ?_⟩⟩ <;>
    exact eqb_int_iff.mpr rfl

/-- Claim C5: the underlying representation of each of the three
enumerations is a 32-bit signed integer: the raw integer of every value
lies in the interval [-2^31, 2^31), so it fits in and converts losslessly
to an int32. -/
theorem claim_C5_underlying_type_is_int32 :
    ∀ (a : AddressFamily) (t : SocketType) (pr : IPProtocol),
      (-(2 ^ 31) ≤ a.rawValue.val ∧ a.rawValue.val < 2 ^ 31) ∧
      (-(2 ^ 31) ≤ t.rawValue.val ∧ t.rawValue.val < 2 ^ 31) ∧
      (-(2 ^ 31) ≤ pr.rawValue.val ∧ pr.rawValue.val < 2 ^ 31) := by
  intro a t pr
  exact ⟨a.rawValue.property, t.rawValue.property, pr.rawValue.property⟩

/-- Claim C6: constructing an IPProtocol from the unrecognized protocol
number 9999 succeeds, its raw integer is 9999, and it compares unequal to
each named variant (tcp, udp, icmp, icmpv6) on the Darwin target
platform. -/
theorem claim_C6_unrecognized_9999 :
    (IPProtocol.fromRaw ⟨9999, by decide⟩).rawValue.val = 9999 ∧
    IPProtocol.eqb (IPProtocol.fromRaw ⟨9999, by decide⟩) (IPProtocol.tcp darwin)
      = false ∧
    IPProtocol.eqb (IPProtocol.fromRaw ⟨9999, by decide⟩) (IPProtocol.udp darwin)
      = false ∧
    IPProtocol.eqb (IPProtocol.fromRaw ⟨9999, by decide⟩) (IPProtocol.icmp darwin)
      = false ∧
    IPProtocol.eqb (IPProtocol.fromRaw ⟨9999, by decide⟩) (IPProtocol.icmpv6 darwin)
      = false := by
  decide

/-- Claim C7: every operation of the layer — construction from an integer,
reading the raw integer, equality comparison, for all three enumerations —
is a pure deterministic function: run in state-passing style over an
arbitrary ambient state, the result is the same from any two starting
states and the state is returned unmodified. -/
theorem claim_C7_operations_are_pure :
    ∀ (σ : Type) (s s' : σ) (n : I32)
      (a b : AddressFamily) (t u : SocketType) (pr qr : IPProtocol),
      ((AddressFamily.fromRawS s n).1 = (AddressFamily.fromRawS s' n).1 ∧
        (AddressFamily.fromRawS s n).2 = s) ∧
      ((AddressFamily.rawValueS s a).1 = (AddressFamily.rawValueS s' a).1 ∧
        (AddressFamily.rawValueS s a).2 = s) ∧
      ((AddressFamily.eqbS s a b).1 = (AddressFamily.eqbS s' a b).1 ∧
        (AddressFamily.eqbS s a b).2 = s) ∧
      ((SocketType.fromRawS s n).1 = (SocketType.fromRawS s' n).1 ∧
        (SocketType.fromRawS s n).2 = s) ∧
      ((SocketType.rawValueS s t).1 = (SocketType.rawValueS s' t).1 ∧
        (SocketType.rawValueS s t).2 = s) ∧
      ((SocketType.eqbS s t u).1 = (SocketType.eqbS s' t u).1 ∧
        (SocketType.eqbS s t u).2 = s) ∧
      ((IPProtocol.fromRawS s n).1 = (IPProtocol.fromRawS s' n).1 ∧
        (IPProtocol.fromRawS s n).2 = s) ∧
      ((IPProtocol.rawValueS s pr).1 = (IPProtocol.rawValueS s' pr).1 ∧
        (IPProtocol.rawValueS s pr).2 = s) ∧
      ((IPProtocol.eqbS s pr qr).1 = (IPProtocol.eqbS s' pr qr).1 ∧
        (IPProtocol.eqbS s pr qr).2 = s) := by
  intro σ s s' n a b t u pr qr
  exact ⟨⟨rfl, rfl⟩, ⟨rfl, rfl⟩, ⟨rfl, rfl⟩, ⟨rfl, rfl⟩, ⟨rfl, rfl⟩,
         ⟨rfl, rfl⟩, ⟨rfl, rfl⟩, ⟨rfl, rfl⟩, ⟨rfl, rfl⟩⟩

/-- Claim C8: within each enumeration, the four named constants denote
pairwise distinct integer values on the Darwin target platform, so a raw
integer matches at most one named variant of its enumeration. -/
theorem claim_C8_named_variants_pairwise_distinct :
    (AddressFamily.unix darwin ≠ AddressFamily.inet darwin ∧
     AddressFamily.unix darwin ≠ AddressFamily.inet6 darwin ∧
     AddressFamily.unix darwin ≠ AddressFamily.link darwin ∧
     AddressFamily.inet darwin ≠ AddressFamily.inet6 darwin ∧
     AddressFamily.inet darwin ≠ AddressFamily.link darwin ∧
     AddressFamily.inet6 darwin ≠ AddressFamily.link darwin) ∧
    (SocketType.stream darwin ≠ SocketType.datagram darwin ∧
     SocketType.stream darwin ≠ SocketType.raw darwin ∧
     SocketType.stream darwin ≠ SocketType.seqpacket darwin ∧
     SocketType.datagram darwin ≠ SocketType.raw darwin ∧
     SocketType.datagram darwin ≠ SocketType.seqpacket darwin ∧
     SocketType.raw darwin ≠ SocketType.seqpacket darwin) ∧
    (IPProtocol.tcp darwin ≠ IPProtocol.udp darwin ∧
     IPProtocol.tcp darwin ≠ IPProtocol.icmp darwin ∧
     IPProtocol.tcp darwin ≠ IPProtocol.icmpv6 darwin ∧
     IPProtocol.udp darwin ≠ IPProtocol.icmp darwin ∧
     IPProtocol.udp darwin ≠ IPProtocol.icmpv6 darwin ∧
     IPProtocol.icmp darwin ≠ IPProtocol.icmpv6 darwin) := by
  decide

/-- Claim C9: for each of the three enumerations, reading a value's raw
integer and constructing from it yields the value back, and two values
are equal exactly when their raw integers are — so the value-to-integer
conversion is injective with construction as its inverse, putting the
values in bijection with the 32-bit signed integers. -/
theorem claim_C9_value_to_int_to_value_roundtrip :
    ∀ (a a' : AddressFamily) (t t' : SocketType) (pr pr' : IPProtocol),
      (AddressFamily.fromRaw a.rawValue = a ∧
        (a.rawValue = a'.rawValue ↔ a = a')) ∧
      (SocketType.fromRaw t.rawValue = t ∧
        (t.rawValue = t'.rawValue ↔ t = t')) ∧
      (IPProtocol.fromRaw pr.rawValue = pr ∧
        (pr.rawValue = pr'.rawValue ↔ pr = pr')) := by
  intro a a' t t' pr pr'
  refine ⟨⟨rfl, ?_⟩, ⟨rfl, ?_⟩, ⟨rfl, ?_⟩⟩
  · exact ⟨fun h => by cases a; cases a'; cases h; rfl, fun h => by rw [h]⟩
  · exact ⟨fun h => by cases t; cases t'; cases h; rfl, fun h => by rw [h]⟩
  · exact ⟨fun h => by cases pr; cases pr'; cases h; rfl, fun h => by rw [h]⟩

end Sockets
